import Mathlib

/-!
Verification of the student CRUD service (`src/app.py`): a shallow embedding
of the in-memory collection and its five mutating/reading handlers, together
with theorems about the behavioural contract.

The Python state is the module-level list `students`; handlers are embedded
as pure functions from the request data and the current list to the HTTP
status, the response payload, and the new list.
-/

/-- A student record, the four keys of the Python dict. -/
structure Student where
  id : Nat
  name : String
  grade : String
  email : String
deriving Repr, DecidableEq

/-- A request body that parsed as a JSON object, projected onto the three
keys the handlers read.  `otherKeys` records whether the object carries any
key besides `name`/`grade`/`email`, which matters only for Python
truthiness of the dict. -/
structure JsonObj where
  name : Option String
  grade : Option String
  email : Option String
  otherKeys : Bool
deriving Repr, DecidableEq

/-- Python truthiness of the parsed dict: a dict is truthy iff non-empty.
`none` request bodies (missing/unparsable) are falsy and handled separately. -/
def jsonTruthy (j : JsonObj) : Bool :=
  j.name.isSome || j.grade.isSome || j.email.isSome || j.otherKeys

/-- The seed collection of `app.py` (module initialisation, lines 14-17). -/
def initialStudents : List Student :=
  [{ id := 1, name := "John Doe", grade := "A", email := "john.doe@example.com" },
   { id := 2, name := "Jane Smith", grade := "B", email := "jane.smith@example.com" }]

/-- `GET /students/<id>` (`get_student`, app.py lines 38-44):
`next((s for s in students if s['id'] == student_id), None)`; 404 when
absent, else the record with status 200. -/
def get_student (student_id : Nat) (students : List Student) :
    Nat × Option Student :=
  match students.find? (fun s => s.id == student_id) with
  | none => (404, none)
  | some student => (200, some student)

/-- The id assigned on create (app.py line 57):
`students[-1]['id'] + 1 if students else 1`. -/
def next_id (students : List Student) : Nat :=
  match students.getLast? with
  | some s => s.id + 1
  | none => 1

/-- The `new_student` dict built on a successful create (app.py lines 56-61). -/
def mkStudent (j : JsonObj) (students : List Student) : Student :=
  { id := next_id students,
    name := j.name.getD "",
    grade := j.grade.getD "",
    email := j.email.getD "" }

/-- `POST /students` (`create_student`, app.py lines 48-64).
The guard is `not request.json or 'name' not in ... or 'grade' ... or
'email' ...` → 400; otherwise the new record gets
`students[-1]['id'] + 1 if students else 1` and is appended.
Result: (status, response payload, new collection). -/
def create_student (body : Option JsonObj) (students : List Student) :
    Nat × Option Student × List Student :=
  match body with
  | none => (400, none, students)
  | some j =>
    if !jsonTruthy j || j.name.isNone || j.grade.isNone || j.email.isNone then
      (400, none, students)
    else
      (201, some (mkStudent j students), students ++ [mkStudent j students])

/-- The in-place mutation of the found record in `update_student`
(app.py lines 81-83): each field present in the body overwrites, each
absent field keeps the prior value (`request.json.get(k, student[k])`). -/
def applyBody (j : JsonObj) (s : Student) : Student :=
  { id := s.id,
    name := j.name.getD s.name,
    grade := j.grade.getD s.grade,
    email := j.email.getD s.email }

/-- Replace the first record whose id matches, mirroring that the Python
code mutates the single dict returned by `next(...)`. -/
def replaceFirstWith (student_id : Nat) (upd : Student → Student) :
    List Student → List Student
  | [] => []
  | s :: rest =>
    if s.id == student_id then upd s :: rest
    else s :: replaceFirstWith student_id upd rest

/-- `PUT /students/<id>` (`update_student`, app.py lines 68-84): 404 when
the id is absent, 400 when `not request.json` (missing, unparsable, or a
falsy/empty object), otherwise merge-update the found record in place and
return it with status 200. -/
def update_student (student_id : Nat) (body : Option JsonObj)
    (students : List Student) : Nat × Option Student × List Student :=
  match students.find? (fun s => s.id == student_id) with
  | none => (404, none, students)
  | some student =>
    match body with
    | none => (400, none, students)
    | some j =>
      if !jsonTruthy j then
        (400, none, students)
      else
        (200, some (applyBody j student),
          replaceFirstWith student_id (applyBody j) students)

/-- `DELETE /students/<id>` (`delete_student`, app.py lines 88-93):
rebuild the list excluding every matching record, return `'', 204`.
Result: (status, response body, new collection). -/
def delete_student (student_id : Nat) (students : List Student) :
    Nat × String × List Student :=
  (204, "", students.filter (fun s => s.id != student_id))

/-- One mutating request against the service. -/
inductive Op where
  | post (body : Option JsonObj)
  | put (student_id : Nat) (body : Option JsonObj)
  | delete (student_id : Nat)
deriving Repr

/-- The collection after one mutating request. -/
def applyOp (students : List Student) : Op → List Student
  | .post body => (create_student body students).2.2
  | .put i body => (update_student i body students).2.2
  | .delete i => (delete_student i students).2.2

/-- The collection after a sequence of mutating requests. -/
def runOps (ops : List Op) (students : List Student) : List Student :=
  ops.foldl applyOp students

/-- A collection state the running service can be in: reachable from the
seed collection by some sequence of POST/PUT/DELETE requests. -/
def Reachable (st : List Student) : Prop :=
  ∃ ops : List Op, runOps ops initialStudents = st

/-- The collection is strictly ascending in `id`. -/
def idsSorted (l : List Student) : Prop :=
  List.Pairwise (fun a b => a.id < b.id) l

/-- Maximum id in the collection (0 when empty). -/
def maxId (l : List Student) : Nat :=
  (l.map Student.id).foldr max 0

/-! ## Helper lemmas about the collection invariant -/

theorem mem_of_getLast?_eq {α : Type} : ∀ {l : List α} {t : α},
    l.getLast? = some t → t ∈ l
  | [], t, h => by simp at h
  | [a], t, h => by
    simp only [List.getLast?_singleton, Option.some.injEq] at h
    simp [h]
  | a :: b :: v, t, h => by
    rw [List.getLast?_cons_cons] at h
    exact List.mem_cons_of_mem a (mem_of_getLast?_eq h)

theorem le_foldr_max {l : List Nat} {a : Nat} (h : a ∈ l) : a ≤ l.foldr max 0 := by
  induction l with
  | nil => cases h
  | cons b t ih =>
    rcases List.mem_cons.mp h with rfl | h
    · exact le_max_left _ _
    · exact le_trans (ih h) (le_max_right _ _)

theorem foldr_max_le {l : List Nat} {b : Nat} (h : ∀ a ∈ l, a ≤ b) :
    l.foldr max 0 ≤ b := by
  induction l with
  | nil => exact Nat.zero_le b
  | cons c t ih =>
    simp only [List.foldr_cons]
    exact max_le (h c (List.mem_cons_self c t))
      (ih fun a ha => h a (List.mem_cons_of_mem c ha))

/-- In a strictly ascending collection, every id is bounded by the last id. -/
theorem sorted_le_getLast? {l : List Student} (hs : idsSorted l) {t : Student}
    (hlast : l.getLast? = some t) : ∀ s ∈ l, s.id ≤ t.id := by
  induction l with
  | nil => simp at hlast
  | cons a u ih =>
    cases u with
    | nil =>
      simp only [List.getLast?_singleton, Option.some.injEq] at hlast
      subst hlast
      intro s hs'
      rw [List.mem_singleton] at hs'
      exact hs' ▸ le_refl _
    | cons b v =>
      rw [List.getLast?_cons_cons] at hlast
      intro s hmem
      rcases List.mem_cons.mp hmem with rfl | hm
      · have hlt := (List.pairwise_cons.mp hs).1
        exact le_of_lt (hlt _ (mem_of_getLast?_eq hlast))
      · exact ih (List.pairwise_cons.mp hs).2 hlast s hm

/-- In a strictly ascending collection, every id is below the next assigned id. -/
theorem lt_next_id {st : List Student} (hs : idsSorted st) {s : Student}
    (hmem : s ∈ st) : s.id < next_id st := by
  cases st with
  | nil => cases hmem
  | cons a t =>
    have hl : (a :: t).getLast? = some ((a :: t).getLast (by simp)) :=
      List.getLast?_eq_getLast _ (by simp)
    have hle := sorted_le_getLast? hs hl s hmem
    simp only [next_id, hl]
    exact Nat.lt_succ_of_le hle

/-- In a strictly ascending nonempty collection, the assigned id is the
maximum id plus one. -/
theorem next_id_eq_maxId {st : List Student} (hs : idsSorted st) :
    next_id st = if st = [] then 1 else maxId st + 1 := by
  cases st with
  | nil => rfl
  | cons a t =>
    rw [if_neg (by simp)]
    have hl : (a :: t).getLast? = some ((a :: t).getLast (by simp)) :=
      List.getLast?_eq_getLast _ (by simp)
    simp only [next_id, hl]
    congr 1
    apply Nat.le_antisymm
    · exact le_foldr_max (List.mem_map_of_mem Student.id (List.getLast_mem _))
    · apply foldr_max_le
      intro x hx
      rcases List.mem_map.mp hx with ⟨s, hsmem, rfl⟩
      exact sorted_le_getLast? hs hl s hsmem

theorem idsSorted_iff_map {l : List Student} :
    idsSorted l ↔ List.Pairwise (fun a b : Nat => a < b) (l.map Student.id) := by
  rw [idsSorted, List.pairwise_map]

theorem replaceFirstWith_map_id (i : Nat) (upd : Student → Student)
    (hupd : ∀ s, (upd s).id = s.id) :
    ∀ l : List Student, (replaceFirstWith i upd l).map Student.id =
      l.map Student.id := by
  intro l
  induction l with
  | nil => rfl
  | cons a t ih =>
    simp only [replaceFirstWith]
    split
    · simp [hupd]
    · simp [ih]

theorem create_preserves_sorted (body : Option JsonObj) {st : List Student}
    (hs : idsSorted st) : idsSorted (create_student body st).2.2 := by
  cases body with
  | none => exact hs
  | some j =>
    simp only [create_student]
    split
    · exact hs
    · rw [idsSorted, List.pairwise_append]
      refine ⟨hs, List.pairwise_singleton _ _, fun a ha b hb => ?_⟩
      rw [List.mem_singleton] at hb
      subst hb
      exact lt_next_id hs ha

theorem update_preserves_sorted (i : Nat) (body : Option JsonObj)
    {st : List Student} (hs : idsSorted st) :
    idsSorted (update_student i body st).2.2 := by
  unfold update_student
  split
  · exact hs
  · split
    · exact hs
    · split
      · exact hs
      · rename_i j hguard
        rw [idsSorted_iff_map] at hs ⊢
        show List.Pairwise (fun a b : Nat => a < b)
          ((replaceFirstWith i (applyBody j) st).map Student.id)
        rw [replaceFirstWith_map_id i (applyBody j) (fun s => rfl)]
        exact hs

theorem delete_preserves_sorted (i : Nat) {st : List Student}
    (hs : idsSorted st) : idsSorted (delete_student i st).2.2 :=
  List.Pairwise.sublist (List.filter_sublist st) hs

theorem initial_sorted : idsSorted initialStudents := by
  unfold idsSorted initialStudents
  refine List.Pairwise.cons ?_ (List.pairwise_singleton _ _)
  intro b hb
  rw [List.mem_singleton] at hb
  subst hb
  decide

theorem runOps_preserves_sorted (ops : List Op) {st : List Student}
    (hs : idsSorted st) : idsSorted (runOps ops st) := by
  induction ops generalizing st with
  | nil => exact hs
  | cons op rest ih =>
    have hstep : idsSorted (applyOp st op) := by
      cases op with
      | post b => exact create_preserves_sorted b hs
      | put i b => exact update_preserves_sorted i b hs
      | delete i => exact delete_preserves_sorted i hs
    exact ih hstep

/-- The central invariant: every reachable collection is strictly ascending
in id. -/
theorem reachable_sorted {st : List Student} (h : Reachable st) :
    idsSorted st := by
  obtain ⟨ops, hops⟩ := h
  exact hops ▸ runOps_preserves_sorted ops initial_sorted

theorem reachable_nodup_ids {st : List Student} (h : Reachable st) :
    (st.map Student.id).Nodup := by
  have hs := (idsSorted_iff_map).mp (reachable_sorted h)
  exact List.Pairwise.imp (fun hlt => Nat.ne_of_lt hlt) hs

theorem find?_append_of_all_false {p : Student → Bool} {l : List Student}
    (h : ∀ a ∈ l, p a = false) (m : List Student) :
    (l ++ m).find? p = m.find? p := by
  induction l with
  | nil => rfl
  | cons a t ih =>
    rw [List.cons_append, List.find?_cons_of_neg _
      (by rw [h a (List.mem_cons_self a t)]; exact Bool.false_ne_true)]
    exact ih (fun b hb => h b (List.mem_cons_of_mem a hb))

theorem replaceFirstWith_find? (i : Nat) (upd : Student → Student)
    (hupd : ∀ s, (upd s).id = s.id) :
    ∀ {l : List Student} {s : Student},
      l.find? (fun t => t.id == i) = some s →
      (replaceFirstWith i upd l).find? (fun t => t.id == i) = some (upd s) := by
  intro l
  induction l with
  | nil => intro s h; simp [List.find?] at h
  | cons a t ih =>
    intro s h
    by_cases ha : a.id = i
    · simp only [List.find?_cons, ha, beq_self_eq_true] at h
      injection h with h
      subst h
      simp [replaceFirstWith, List.find?_cons, ha, hupd]
    · have hc : (a.id == i) = false := by simp [ha]
      simp only [List.find?_cons, hc] at h
      simp only [replaceFirstWith, hc, Bool.false_eq_true, if_false]
      simp only [List.find?_cons, hc]
      exact ih h

theorem replaceFirstWith_filter_ne (i : Nat) (upd : Student → Student)
    (hupd : ∀ s, (upd s).id = s.id) :
    ∀ l : List Student,
      (replaceFirstWith i upd l).filter (fun t => t.id != i) =
        l.filter (fun t => t.id != i) := by
  intro l
  induction l with
  | nil => rfl
  | cons a t ih =>
    by_cases ha : a.id = i
    · have hc : (a.id == i) = true := by simp [ha]
      have hu : ((upd a).id != i) = false := by simp [hupd, ha]
      have hn : (a.id != i) = false := by simp [ha]
      simp only [replaceFirstWith, hc, if_true]
      simp only [List.filter_cons, hu, hn, Bool.false_eq_true, if_false]
    · have hc : (a.id == i) = false := by simp [ha]
      have hn : (a.id != i) = true := by simp [ha]
      simp only [replaceFirstWith, hc, Bool.false_eq_true, if_false]
      simp only [List.filter_cons, hn, if_true, ih]

/-- Removing one present id from a duplicate-free collection shortens it by
exactly one. -/
theorem filter_ne_length {i : Nat} :
    ∀ {l : List Student}, (l.map Student.id).Nodup →
      ∀ {s : Student}, s ∈ l → s.id = i →
      (l.filter (fun t => t.id != i)).length + 1 = l.length := by
  intro l
  induction l with
  | nil => intro _ s hmem; cases hmem
  | cons a t ih =>
    intro hnd s hmem hid
    rw [List.map_cons, List.nodup_cons] at hnd
    by_cases ha : a.id = i
    · rw [List.filter_cons_of_neg (by simp [ha])]
      have hall : ∀ b ∈ t, (b.id != i) = true := by
        intro b hb
        have hne : b.id ≠ a.id :=
          fun he => hnd.1 (he ▸ List.mem_map_of_mem Student.id hb)
        simp [ha ▸ hne]
      rw [List.filter_eq_self.mpr hall, List.length_cons]
    · rcases List.mem_cons.mp hmem with rfl | hm
      · exact absurd hid ha
      · rw [List.filter_cons_of_pos (by simp [ha]), List.length_cons,
          List.length_cons]
        have := ih hnd.2 hm hid
        omega

/-! ## Claims -/

/-- Claim C9: in every state reachable from the initial collection by POST,
PUT and DELETE, the collection is strictly ascending in id; in particular
the last record holds the maximum id, so the code's
`students[-1]['id'] + 1` coincides with (maximum existing id) + 1. -/
theorem reachable_sorted_last_is_max {st : List Student} (h : Reachable st) :
    idsSorted st ∧
    (∀ t : Student, st.getLast? = some t → t.id = maxId st) ∧
    next_id st = (if st = [] then 1 else maxId st + 1) := by
  have hs := reachable_sorted h
  refine ⟨hs, ?_, next_id_eq_maxId hs⟩
  intro t hlast
  apply Nat.le_antisymm
  · exact le_foldr_max (List.mem_map_of_mem Student.id (mem_of_getLast?_eq hlast))
  · exact foldr_max_le (fun x hx => by
      rcases List.mem_map.mp hx with ⟨s, hsmem, rfl⟩
      exact sorted_le_getLast? hs hlast s hsmem)

/-- Witness for C9, at the seed collection. -/
theorem reachable_sorted_last_is_max_witness :
    idsSorted initialStudents ∧
    (∀ t : Student, initialStudents.getLast? = some t →
      t.id = maxId initialStudents) ∧
    next_id initialStudents =
      (if initialStudents = [] then 1 else maxId initialStudents + 1) :=
  reachable_sorted_last_is_max ⟨[], rfl⟩

/-- Claim C2: in every state reachable from the initial two-record
collection by POST, PUT and DELETE, the ids in the collection are pairwise
distinct. -/
theorem reachable_ids_pairwise_distinct {st : List Student}
    (h : Reachable st) :
    List.Pairwise (fun a b : Student => a.id ≠ b.id) st :=
  List.Pairwise.imp (fun hlt => Nat.ne_of_lt hlt) (reachable_sorted h)

/-- Witness for C2, at the seed collection. -/
theorem reachable_ids_pairwise_distinct_witness :
    List.Pairwise (fun a b : Student => a.id ≠ b.id) initialStudents :=
  reachable_ids_pairwise_distinct ⟨[], rfl⟩

/-- Claim C1: for every valid POST (body a JSON object carrying name, grade
and email) in a reachable state, the created record's id is the maximum
existing id plus 1, or 1 when the collection was empty. -/
theorem create_id_is_max_plus_one {st : List Student} {j : JsonObj}
    (h : Reachable st) (hn : j.name.isSome = true) (hg : j.grade.isSome = true)
    (he : j.email.isSome = true) :
    (create_student (some j) st).1 = 201 ∧
    ∃ s : Student, (create_student (some j) st).2.1 = some s ∧
      s.id = (if st = [] then 1 else maxId st + 1) := by
  obtain ⟨n, hn'⟩ := Option.isSome_iff_exists.mp hn
  obtain ⟨g, hg'⟩ := Option.isSome_iff_exists.mp hg
  obtain ⟨e, he'⟩ := Option.isSome_iff_exists.mp he
  have hcreate : create_student (some j) st =
      (201, some (mkStudent j st), st ++ [mkStudent j st]) := by
    simp [create_student, jsonTruthy, hn', hg', he']
  rw [hcreate]
  refine ⟨rfl, mkStudent j st, rfl, ?_⟩
  show next_id st = _
  exact next_id_eq_maxId (reachable_sorted h)

/-- Witness for C1: the seed collection with a fully populated body. -/
theorem create_id_is_max_plus_one_witness :
    (create_student (some ⟨some "Alice", some "C", some "alice@example.com",
      false⟩) initialStudents).1 = 201 ∧
    ∃ s : Student,
      (create_student (some ⟨some "Alice", some "C", some "alice@example.com",
        false⟩) initialStudents).2.1 = some s ∧
      s.id = (if initialStudents = [] then 1 else maxId initialStudents + 1) :=
  create_id_is_max_plus_one ⟨[], rfl⟩ rfl rfl rfl

/-- Claim C7: a GET with the id returned by a successful POST, performed
immediately afterwards, returns 200 with exactly the record the POST
returned. -/
theorem get_after_create_returns_created {st : List Student} {j : JsonObj}
    (h : Reachable st) (hn : j.name.isSome = true) (hg : j.grade.isSome = true)
    (he : j.email.isSome = true) :
    ∃ s : Student, (create_student (some j) st).2.1 = some s ∧
      get_student s.id (create_student (some j) st).2.2 = (200, some s) := by
  obtain ⟨n, hn'⟩ := Option.isSome_iff_exists.mp hn
  obtain ⟨g, hg'⟩ := Option.isSome_iff_exists.mp hg
  obtain ⟨e, he'⟩ := Option.isSome_iff_exists.mp he
  have hcreate : create_student (some j) st =
      (201, some (mkStudent j st), st ++ [mkStudent j st]) := by
    simp [create_student, jsonTruthy, hn', hg', he']
  rw [hcreate]
  refine ⟨mkStudent j st, rfl, ?_⟩
  have hs := reachable_sorted h
  have hfind : (st ++ [mkStudent j st]).find?
      (fun t => t.id == (mkStudent j st).id) = some (mkStudent j st) := by
    rw [find?_append_of_all_false (fun a ha => ?_) _]
    · simp [List.find?_cons]
    · have hlt : a.id < next_id st := lt_next_id hs ha
      show (a.id == next_id st) = false
      simp only [beq_eq_false_iff_ne]
      exact Nat.ne_of_lt hlt
  unfold get_student
  rw [hfind]

/-- Witness for C7: the seed collection with a fully populated body. -/
theorem get_after_create_returns_created_witness :
    ∃ s : Student,
      (create_student (some ⟨some "Alice", some "C", some "alice@example.com",
        false⟩) initialStudents).2.1 = some s ∧
      get_student s.id
        (create_student (some ⟨some "Alice", some "C", some "alice@example.com",
          false⟩) initialStudents).2.2 = (200, some s) :=
  get_after_create_returns_created ⟨[], rfl⟩ rfl rfl rfl

/-- Counterexample to claim C3 as stated: the empty JSON object parses as a
JSON object and id 1 exists in the seed collection, yet the PUT answers
400, not 200, because the handler tests the parsed dict for truthiness. -/
theorem update_empty_object_counterexample :
    ((initialStudents.find? (fun t => t.id == 1)).isSome = true) ∧
    (update_student 1 (some ⟨none, none, none, false⟩) initialStudents).1
      = 400 ∧
    ¬ ((update_student 1 (some ⟨none, none, none, false⟩)
      initialStudents).1 = 200) := by
  decide

/-- Claim C3 (amended): for every PUT on an existing id whose body parses
as a non-empty JSON object, each of name, grade, email present in the body
overwrites that field, each absent field keeps its prior value, the
response is 200 with the updated record, and the rest of the collection is
untouched. -/
theorem update_merge_semantics {st : List Student} {i : Nat} {j : JsonObj}
    {s : Student} (hfind : st.find? (fun t => t.id == i) = some s)
    (htruthy : jsonTruthy j = true) :
    (update_student i (some j) st).1 = 200 ∧
    ∃ u : Student, (update_student i (some j) st).2.1 = some u ∧
      u.id = s.id ∧
      (∀ v, j.name = some v → u.name = v) ∧
      (j.name = none → u.name = s.name) ∧
      (∀ v, j.grade = some v → u.grade = v) ∧
      (j.grade = none → u.grade = s.grade) ∧
      (∀ v, j.email = some v → u.email = v) ∧
      (j.email = none → u.email = s.email) ∧
      (update_student i (some j) st).2.2.find? (fun t => t.id == i) = some u ∧
      (update_student i (some j) st).2.2.filter (fun t => t.id != i) =
        st.filter (fun t => t.id != i) := by
  have hupd : update_student i (some j) st =
      (200, some (applyBody j s), replaceFirstWith i (applyBody j) st) := by
    simp [update_student, hfind, htruthy]
  rw [hupd]
  refine ⟨rfl, applyBody j s, rfl, rfl, ?_, ?_, ?_, ?_, ?_, ?_, ?_, ?_⟩
  · intro v hv; simp [applyBody, hv]
  · intro hv; simp [applyBody, hv]
  · intro v hv; simp [applyBody, hv]
  · intro hv; simp [applyBody, hv]
  · intro v hv; simp [applyBody, hv]
  · intro hv; simp [applyBody, hv]
  · exact replaceFirstWith_find? i (applyBody j) (fun t => rfl) hfind
  · exact replaceFirstWith_filter_ne i (applyBody j) (fun t => rfl) st

/-- Witness for the amended C3: spec scenario 3, PUT /students/2 with a
body carrying only grade. -/
theorem update_merge_semantics_witness :
    (update_student 2 (some ⟨none, some "A+", none, false⟩)
      initialStudents).1 = 200 ∧
    ∃ u : Student,
      (update_student 2 (some ⟨none, some "A+", none, false⟩)
        initialStudents).2.1 = some u ∧
      u.id = (⟨2, "Jane Smith", "B", "jane.smith@example.com"⟩ : Student).id ∧
      (∀ v, (⟨none, some "A+", none, false⟩ : JsonObj).name = some v →
        u.name = v) ∧
      ((⟨none, some "A+", none, false⟩ : JsonObj).name = none →
        u.name = (⟨2, "Jane Smith", "B", "jane.smith@example.com"⟩ : Student).name) ∧
      (∀ v, (⟨none, some "A+", none, false⟩ : JsonObj).grade = some v →
        u.grade = v) ∧
      ((⟨none, some "A+", none, false⟩ : JsonObj).grade = none →
        u.grade = (⟨2, "Jane Smith", "B", "jane.smith@example.com"⟩ : Student).grade) ∧
      (∀ v, (⟨none, some "A+", none, false⟩ : JsonObj).email = some v →
        u.email = v) ∧
      ((⟨none, some "A+", none, false⟩ : JsonObj).email = none →
        u.email = (⟨2, "Jane Smith", "B", "jane.smith@example.com"⟩ : Student).email) ∧
      (update_student 2 (some ⟨none, some "A+", none, false⟩)
        initialStudents).2.2.find? (fun t => t.id == 2) = some u ∧
      (update_student 2 (some ⟨none, some "A+", none, false⟩)
        initialStudents).2.2.filter (fun t => t.id != 2) =
          initialStudents.filter (fun t => t.id != 2) :=
  update_merge_semantics rfl rfl

/-- Claim C4: POST with a missing/non-object body or with any of name,
grade, email absent from the body answers 400 and leaves the collection
exactly as it was. -/
theorem create_missing_field_rejected {body : Option JsonObj}
    {st : List Student}
    (h : body = none ∨ ∃ j : JsonObj, body = some j ∧
      (j.name = none ∨ j.grade = none ∨ j.email = none)) :
    (create_student body st).1 = 400 ∧ (create_student body st).2.2 = st := by
  rcases h with rfl | ⟨j, rfl, hj⟩
  · exact ⟨rfl, rfl⟩
  · rcases hj with hj | hj | hj <;> simp [create_student, hj]

/-- Witness for C4: spec scenario 5, a body with only a name. -/
theorem create_missing_field_rejected_witness :
    (create_student (some ⟨some "X", none, none, false⟩)
      initialStudents).1 = 400 ∧
    (create_student (some ⟨some "X", none, none, false⟩)
      initialStudents).2.2 = initialStudents :=
  create_missing_field_rejected
    (Or.inr ⟨⟨some "X", none, none, false⟩, rfl, Or.inr (Or.inl rfl)⟩)

/-- Claim C5: DELETE always answers 204 with an empty body, whether or not
the id exists, and repeating the same DELETE answers 204 again without any
further effect on the collection. -/
theorem delete_idempotent_always_204 (i : Nat) (st : List Student) :
    (delete_student i st).1 = 204 ∧ (delete_student i st).2.1 = "" ∧
    (delete_student i (delete_student i st).2.2).1 = 204 ∧
    (delete_student i (delete_student i st).2.2).2.1 = "" ∧
    (delete_student i (delete_student i st).2.2).2.2 =
      (delete_student i st).2.2 := by
  refine ⟨rfl, rfl, rfl, rfl, ?_⟩
  show (st.filter (fun s => s.id != i)).filter (fun s => s.id != i) =
    st.filter (fun s => s.id != i)
  rw [List.filter_filter]
  simp

/-- Claim C6: in a reachable state, DELETE of a present id shrinks the
collection by exactly one record, and DELETE of an absent id leaves the
collection unchanged. -/
theorem delete_length_change {i : Nat} {st : List Student}
    (h : Reachable st) :
    ((∃ s ∈ st, s.id = i) →
      (delete_student i st).2.2.length + 1 = st.length) ∧
    ((∀ s ∈ st, s.id ≠ i) → (delete_student i st).2.2 = st) := by
  constructor
  · rintro ⟨s, hmem, hid⟩
    exact filter_ne_length (reachable_nodup_ids h) hmem hid
  · intro hnone
    show st.filter (fun t => t.id != i) = st
    rw [List.filter_eq_self]
    intro a ha
    simp [hnone a ha]

/-- Witness for C6 at the seed collection with id 1. -/
theorem delete_length_change_witness :
    ((∃ s ∈ initialStudents, s.id = 1) →
      (delete_student 1 initialStudents).2.2.length + 1 =
        initialStudents.length) ∧
    ((∀ s ∈ initialStudents, s.id ≠ 1) →
      (delete_student 1 initialStudents).2.2 = initialStudents) :=
  delete_length_change ⟨[], rfl⟩

/-- Claim C8: issued ids are not globally monotonic: starting from the
seed collection, deleting the record holding the highest id (2) and then
performing a valid create reissues id 2, which an earlier, since-deleted
record already held. -/
theorem id_reuse_after_delete_max :
    (∃ s ∈ initialStudents, s.id = 2) ∧
    (∀ s ∈ initialStudents, s.id ≤ 2) ∧
    (delete_student 2 initialStudents).1 = 204 ∧
    (∀ s ∈ (delete_student 2 initialStudents).2.2, s.id ≠ 2) ∧
    (create_student (some ⟨some "Al", some "C", some "al@x.com", false⟩)
        (delete_student 2 initialStudents).2.2).1 = 201 ∧
    ((create_student (some ⟨some "Al", some "C", some "al@x.com", false⟩)
        (delete_student 2 initialStudents).2.2).2.1.map Student.id)
      = some 2 := by
  decide

/-- Claim C10: a body parsing as the empty JSON object is falsy in Python,
so POST answers 400 leaving the collection unchanged, and PUT on an
existing id answers 400 leaving the collection unchanged instead of the
200 merge. -/
theorem empty_object_rejected {st : List Student} {i : Nat}
    (hex : (st.find? (fun t => t.id == i)).isSome = true) :
    (create_student (some ⟨none, none, none, false⟩) st).1 = 400 ∧
    (create_student (some ⟨none, none, none, false⟩) st).2.2 = st ∧
    (update_student i (some ⟨none, none, none, false⟩) st).1 = 400 ∧
    (update_student i (some ⟨none, none, none, false⟩) st).2.2 = st := by
  obtain ⟨s, hs⟩ := Option.isSome_iff_exists.mp hex
  refine ⟨by simp [create_student, jsonTruthy],
    by simp [create_student, jsonTruthy], ?_, ?_⟩
  · simp [update_student, hs, jsonTruthy]
  · simp [update_student, hs, jsonTruthy]

/-- Witness for C10 at the seed collection with id 1. -/
theorem empty_object_rejected_witness :
    (create_student (some ⟨none, none, none, false⟩) initialStudents).1
      = 400 ∧
    (create_student (some ⟨none, none, none, false⟩) initialStudents).2.2
      = initialStudents ∧
    (update_student 1 (some ⟨none, none, none, false⟩) initialStudents).1
      = 400 ∧
    (update_student 1 (some ⟨none, none, none, false⟩) initialStudents).2.2
      = initialStudents :=
  empty_object_rejected rfl
